import Mathlib

/-!
# Verification of the anomaly-detection engine of `procure-saas-v010`

Shallow embedding of `src/common/security/services/anomaly-detection.service.ts`
(`AnomalyDetectionService`) and the Prisma data model it queries
(`test_orders`, `test_users`, `audit_logs`, `anomaly_logs` from the
`20250508135550_add_test_models` migration).

Modelling conventions:
* timestamps are milliseconds since the epoch (`Int`), with a single frozen
  `now` standing for `Date.now()`;
* monetary amounts (`total_amount`, a SQL double) are embedded as exact
  rationals `ℚ`, so SQL `AVG`/`MAX` become exact list aggregates;
* each Prisma table is a list of rows; a query is a list computation;
* fallible operations (queries, inserts, notification sends) are driven by an
  `Env` of failure switches; a thrown JS error is an `Except.error` carrying
  the rows already inserted (inserts before the throw persist);
* `NotificationService.sendNotification` is not part of the sources, so its
  dispatcher is modelled from the spec (see `sendNotificationRun`); the
  embedding additionally allows the whole call to throw (`Env.notifyThrows`)
  to check the detectors' own try/catch.
-/

namespace ProcureErp

/-- One hour of milliseconds, `60 * 60 * 1000` (the high-value recency window). -/
def hourMs : Int := 60 * 60 * 1000

/-- Thirty minutes of milliseconds, `30 * 60 * 1000` (the auth-failure window). -/
def thirtyMinutesMs : Int := 30 * 60 * 1000

/-- Two hours of milliseconds, `2 * 60 * 60 * 1000` (the unusual-access window). -/
def twoHoursMs : Int := 2 * 60 * 60 * 1000

/-- Thirty days of milliseconds, `30 * 24 * 60 * 60 * 1000` (the access baseline). -/
def thirtyDaysMs : Int := 30 * 24 * 60 * 60 * 1000

/-- Ninety days of milliseconds, `90 * 24 * 60 * 60 * 1000` (the purchase baseline). -/
def ninetyDaysMs : Int := 90 * 24 * 60 * 60 * 1000

/-- A row of `test_orders`. -/
structure TestOrder where
  id : String
  order_number : String
  user_id : String
  status : String
  total_amount : ℚ
  created_at : Int
deriving DecidableEq

/-- A row of `test_users`. -/
structure TestUser where
  id : String
  username : String
  email : String
  role : String
  is_active : Bool
deriving DecidableEq

/-- A row of `audit_logs` (the columns the detection service reads). -/
structure AuditLog where
  id : String
  user_id : Option String
  action : String
  resource : String
  ip_address : String
  response_status : Int
  timestamp : Int
deriving DecidableEq

/-- The `details` JSON payload written by `logAnomaly`, one variant per
detector (`{orderId, amount, avgAmount}`, `{ipAddress, count}`,
`{username, unusualResources, unusualIps}`). -/
inductive AnomalyDetails where
  | highPurchase (orderId : String) (amount : ℚ) (avgAmount : ℚ)
  | authFailure (ipAddress : String) (count : Nat)
  | unusualAccess (username : Option String) (unusualResources : List String)
      (unusualIps : List String)
deriving DecidableEq

/-- A row of `anomaly_logs` (the `AnomalyLogRecord` model inserted by
`logAnomaly`). -/
structure AnomalyLogRecord where
  type : String
  severity : String
  user_id : Option String
  details : AnomalyDetails
  detected_at : Int
  is_resolved : Bool
  resolved_at : Option Int
  resolved_by : Option String
  notes : Option String
deriving DecidableEq

/-- The queried database state. -/
structure DB where
  orders : List TestOrder
  users : List TestUser
  auditLogs : List AuditLog
deriving DecidableEq

/-- Failure switches for the fallible operations the service performs.
A `true` switch makes the corresponding operation throw (queries, user
lookup, the notification call) or silently fail (`insertFails`,
`adminQueryFails` — those two are caught inside their own methods).
`failingChannels` lists notification channels whose sends fail inside the
dispatcher. -/
structure Env where
  ordersQueryFails : Bool
  statsQueryFails : Bool
  authQueryFails : Bool
  recentQueryFails : Bool
  histQueryFails : Bool
  userLookupFails : Bool
  adminQueryFails : Bool
  insertFails : Bool
  notifyThrows : Bool
  failingChannels : List String
deriving DecidableEq

/-- The environment in which every operation succeeds. -/
def cleanEnv : Env :=
  { ordersQueryFails := false, statsQueryFails := false, authQueryFails := false
    recentQueryFails := false, histQueryFails := false, userLookupFails := false
    adminQueryFails := false, insertFails := false, notifyThrows := false
    failingChannels := [] }

/-- The method `getAdministrators(role)` (lines 335-356): active `test_users` whose role
is in `['admin', role, 'super_admin']`, ids only; its own try/catch returns
`[]` on a query failure. -/
def getAdministratorsRun (env : Env) (db : DB) (role : String) : List String :=
  if env.adminQueryFails then []
  else
    ((db.users.filter (fun u =>
        (u.role == "admin" || u.role == role || u.role == "super_admin")
          && u.is_active)).map (fun u => u.id))

/-- Modelled from the spec: `NotificationService.sendNotification` (file
`src/common/notifications/services/notification.service.ts`, absent from the
sources). Per spec §4.7 delivery is fire-and-forget per channel: every
requested channel is attempted, a channel in `failing` yields a failed send
(`false`) that is logged and swallowed at the dispatcher boundary, and the
call returns normally. -/
def sendNotificationRun (failing : List String) (channels : List String) :
    List (String × Bool) :=
  channels.map (fun c => (c, !(failing.contains c)))

/-- The channel list every detector requests (`['email', 'slack', 'in-app']`). -/
def allChannels : List String := ["email", "slack", "in-app"]

/-- The `anomaly_logs` row built by `logAnomaly`'s `create` call:
`detected_at = new Date()`, `is_resolved = false`, and the resolution
columns left unset. -/
def mkAnomalyRecord (type severity : String) (userId : Option String)
    (details : AnomalyDetails) (now : Int) : AnomalyLogRecord :=
  { type := type, severity := severity, user_id := userId, details := details
    detected_at := now, is_resolved := false, resolved_at := none
    resolved_by := none, notes := none }

/-- The method `logAnomaly(type, severity, userId, details)` (lines 365-385): inserts a
fresh row; its own try/catch swallows a persistence failure (the row is then
simply not inserted). -/
def logAnomalyRun (env : Env) (store : List AnomalyLogRecord)
    (type severity : String) (userId : Option String)
    (details : AnomalyDetails) (now : Int) : List AnomalyLogRecord :=
  if env.insertFails then store
  else store ++ [mkAnomalyRecord type severity userId details now]

/-- Runs a detector's per-candidate loop body over its candidate list.
`Except.error recs` models a JS exception escaping the loop with `recs` the
rows inserted before the throw. -/
def runSteps
    (step : List AnomalyLogRecord → α →
      Except (List AnomalyLogRecord) (List AnomalyLogRecord)) :
    List α → List AnomalyLogRecord →
      Except (List AnomalyLogRecord) (List AnomalyLogRecord)
  | [], acc => .ok acc
  | x :: xs, acc =>
    match step acc x with
    | .error recs => .error recs
    | .ok acc2 => runSteps step xs acc2

/-! ## High-value purchase detector (lines 42-114) -/

/-- The `testOrder.findMany` of lines 47-57: orders with
`created_at ≥ now - 1h` and `status = 'pending'`. -/
def recentPendingOrders (db : DB) (now : Int) : List TestOrder :=
  db.orders.filter (fun o =>
    decide (now - hourMs ≤ o.created_at) && o.status == "pending")

/-- The row set of the raw aggregate query of lines 61-68: the purchaser's
approved orders with `now - 90d ≤ created_at < now - 1h`. -/
def approvedHistory (db : DB) (now : Int) (userId : String) : List TestOrder :=
  db.orders.filter (fun o =>
    o.user_id == userId
      && decide (now - ninetyDaysMs ≤ o.created_at)
      && decide (o.created_at < now - hourMs)
      && o.status == "approved")

/-- The aggregate `avg_amount`: SQL `AVG(total_amount)` over `approvedHistory` with the
JS `|| 0` fallback for the `NULL` returned on an empty row set. -/
def avgAmountOf (db : DB) (now : Int) (userId : String) : ℚ :=
  let h := approvedHistory db now userId
  if h.isEmpty then 0
  else (h.map (fun o => o.total_amount)).sum / (h.length : ℚ)

/-- The aggregate `max_amount`: SQL `MAX(total_amount)` over `approvedHistory` with the
JS `|| 0` fallback for the `NULL` returned on an empty row set. -/
def maxAmountOf (db : DB) (now : Int) (userId : String) : ℚ :=
  match (approvedHistory db now userId).map (fun o => o.total_amount) with
  | [] => 0
  | a :: as => as.foldl max a

/-- The flagging test of line 74:
`purchase.total_amount > avgAmount * 3 && purchase.total_amount > maxAmount * 1.5`. -/
def hvFlag (db : DB) (now : Int) (o : TestOrder) : Bool :=
  decide (avgAmountOf db now o.user_id * 3 < o.total_amount)
    && decide (maxAmountOf db now o.user_id * (3 / 2 : ℚ) < o.total_amount)

/-- One iteration of the loop of lines 59-110: baseline query, flag test,
then (for a flagged order) administrator lookup, notification, insert — in
that source order. -/
def hvStep (env : Env) (db : DB) (now : Int) (acc : List AnomalyLogRecord)
    (p : TestOrder) : Except (List AnomalyLogRecord) (List AnomalyLogRecord) :=
  if env.statsQueryFails then .error acc
  else if hvFlag db now p then
    let _admins := getAdministratorsRun env db "purchase_admin"
    let _sent := sendNotificationRun env.failingChannels allChannels
    if env.notifyThrows then .error acc
    else
      .ok (logAnomalyRun env acc "high_purchase" "high" (some p.user_id)
        (.highPurchase p.id p.total_amount (avgAmountOf db now p.user_id)) now)
  else .ok acc

/-- The body of `detectHighValuePurchases` inside its try (lines 45-110). -/
def hvBody (env : Env) (db : DB) (now : Int) :
    Except (List AnomalyLogRecord) (List AnomalyLogRecord) :=
  if env.ordersQueryFails then .error []
  else runSteps (hvStep env db now) (recentPendingOrders db now) []

/-- The catch of a detector (e.g. lines 111-113): the error is logged and
swallowed; the rows inserted before the throw persist either way. -/
def detectorRecords
    (body : Except (List AnomalyLogRecord) (List AnomalyLogRecord)) :
    List AnomalyLogRecord :=
  match body with
  | .ok recs => recs
  | .error recs => recs

/-- The method `detectHighValuePurchases()`: the rows it inserts into `anomaly_logs`. -/
def detectHighValuePurchasesRun (env : Env) (db : DB) (now : Int) :
    List AnomalyLogRecord :=
  detectorRecords (hvBody env db now)

/-! ## Authentication-failure detector (lines 120-185) -/

/-- Whether `p` occurs at the head of the second list (character lists). -/
def leadsWith : List Char → List Char → Bool
  | [], _ => true
  | _ :: _, [] => false
  | p :: ps, c :: cs => p == c && leadsWith ps cs

/-- Whether `p` occurs somewhere inside the second list (character lists). -/
def hasSub (p : List Char) : List Char → Bool
  | [] => p.isEmpty
  | c :: cs => leadsWith p (c :: cs) || hasSub p cs

/-- Prisma's `contains` string filter (case-sensitive substring test). -/
def strContains (s pat : String) : Bool :=
  hasSub pat.data s.data

/-- The `where` filter of the `auditLog.groupBy` of lines 125-137: action
contains `'login'`, `response_status ≥ 400`, `timestamp ≥ now - 30min`. -/
def isFailedLogin (now : Int) (l : AuditLog) : Bool :=
  strContains l.action "login"
    && decide (400 ≤ l.response_status)
    && decide (now - thirtyMinutesMs ≤ l.timestamp)

/-- Audit rows matching the failed-login filter. -/
def failedLogins (db : DB) (now : Int) : List AuditLog :=
  db.auditLogs.filter (isFailedLogin now)

/-- The grouping keys produced by `groupBy: ['ip_address', 'user_id']`. -/
def authKeys (db : DB) (now : Int) : List (String × Option String) :=
  ((failedLogins db now).map (fun l => (l.ip_address, l.user_id))).dedup

/-- The group aggregate `_count.id`: the number of failed-login rows with that
(ip, user) key. -/
def authCount (db : DB) (now : Int) (k : String × Option String) : Nat :=
  ((failedLogins db now).filter
    (fun l => decide ((l.ip_address, l.user_id) = k))).length

/-- The groups returned by the `groupBy` with its `having` clause
`_count.id > 5` (lines 141-147). -/
def groupedAuthFailures (db : DB) (now : Int) : List (String × Option String) :=
  (authKeys db now).filter (fun k => decide (5 < authCount db now k))

/-- One iteration of the loop of lines 150-181: administrator lookup,
notification, insert — in that source order. -/
def authStep (env : Env) (db : DB) (now : Int) (acc : List AnomalyLogRecord)
    (k : String × Option String) :
    Except (List AnomalyLogRecord) (List AnomalyLogRecord) :=
  let _admins := getAdministratorsRun env db "security_admin"
  let _sent := sendNotificationRun env.failingChannels allChannels
  if env.notifyThrows then .error acc
  else
    .ok (logAnomalyRun env acc "auth_failure" "high" k.2
      (.authFailure k.1 (authCount db now k)) now)

/-- The body of `detectAuthenticationFailures` inside its try (lines 123-181). -/
def authBody (env : Env) (db : DB) (now : Int) :
    Except (List AnomalyLogRecord) (List AnomalyLogRecord) :=
  if env.authQueryFails then .error []
  else runSteps (authStep env db now) (groupedAuthFailures db now) []

/-- The method `detectAuthenticationFailures()`: the rows it inserts into `anomaly_logs`. -/
def detectAuthenticationFailuresRun (env : Env) (db : DB) (now : Int) :
    List AnomalyLogRecord :=
  detectorRecords (authBody env db now)

/-! ## Unusual-access detector (lines 191-328) -/

/-- The `auditLog.findMany` of lines 196-206: rows with
`timestamp ≥ now - 2h` and a non-null `user_id`. (The `orderBy timestamp
desc` only permutes the scan; it is dropped — no claim depends on row
order within the window.) -/
def recentAuthEvents (db : DB) (now : Int) : List AuditLog :=
  db.auditLogs.filter (fun l =>
    decide (now - twoHoursMs ≤ l.timestamp) && l.user_id.isSome)

/-- The keys of `userAccessMap` (lines 209-232): users of the recent
events, except those skipped by the JS-truthiness guard
`if (!log.user_id) continue` (which also drops an empty-string id). -/
def uaUsers (db : DB) (now : Int) : List String :=
  (((recentAuthEvents db now).filterMap (fun l => l.user_id)).filter
    (fun u => u != "")).dedup

/-- The recent events contributing to user `u`'s map entry. -/
def userRecentEvents (db : DB) (now : Int) (u : String) : List AuditLog :=
  (recentAuthEvents db now).filter (fun l => l.user_id == some u)

/-- The map entry `userAccessMap.get(u).resources`: distinct resources of `u`'s recent
events. -/
def recentResourcesOf (db : DB) (now : Int) (u : String) : List String :=
  ((userRecentEvents db now u).map (fun l => l.resource)).dedup

/-- The map entry `userAccessMap.get(u).ipAddresses`: distinct source IPs of `u`'s recent
events. -/
def recentIpsOf (db : DB) (now : Int) (u : String) : List String :=
  ((userRecentEvents db now u).map (fun l => l.ip_address)).dedup

/-- The per-user `auditLog.findMany` of lines 237-248: `u`'s events with
`now - 30d ≤ timestamp < now - 2h`. -/
def historicalEvents (db : DB) (now : Int) (u : String) : List AuditLog :=
  db.auditLogs.filter (fun l =>
    l.user_id == some u
      && decide (now - thirtyDaysMs ≤ l.timestamp)
      && decide (l.timestamp < now - twoHoursMs))

/-- The set `commonResources` (lines 251-257): distinct resources of the historical
events; the JS-truthiness guard `if (log.resource)` drops empty strings. -/
def commonResourcesOf (db : DB) (now : Int) (u : String) : List String :=
  (((historicalEvents db now u).map (fun l => l.resource)).filter
    (fun r => r != "")).dedup

/-- The map `ipFrequency` (lines 252-262) as read by the `!ipFrequency[ip]`
test: the count of `u`'s historical events from `ip` (an absent map entry
reads as 0; the truthiness guard `if (log.ip_address)` keeps an
empty-string IP out of the map). -/
def ipFrequencyOf (db : DB) (now : Int) (u : String) (ip : String) : Nat :=
  if ip = "" then 0
  else ((historicalEvents db now u).filter
    (fun l => l.ip_address == ip)).length

/-- The list `unusualResources` (lines 265-267): recent resources not in
`commonResources`. -/
def unusualResourcesOf (db : DB) (now : Int) (u : String) : List String :=
  (recentResourcesOf db now u).filter
    (fun r => !((commonResourcesOf db now u).contains r))

/-- The list `unusualIps` (lines 270-272): recent IPs with no historical frequency. -/
def unusualIpsOf (db : DB) (now : Int) (u : String) : List String :=
  (recentIpsOf db now u).filter (fun ip => ipFrequencyOf db now u ip == 0)

/-- The flagging test of line 274:
`unusualResources.length > 0 || unusualIps.length > 0`. -/
def uaFlag (db : DB) (now : Int) (u : String) : Bool :=
  decide (0 < (unusualResourcesOf db now u).length)
    || decide (0 < (unusualIpsOf db now u).length)

/-- The lookup `testUser.findUnique` on a user id (lines 276-278). -/
def findUserById (db : DB) (u : String) : Option TestUser :=
  db.users.find? (fun t => t.id == u)

/-- One iteration of the loop of lines 235-324: historical query, flag
test, then (for a flagged user) user lookup, administrator lookup,
notification, insert — in that source order. -/
def uaStep (env : Env) (db : DB) (now : Int) (acc : List AnomalyLogRecord)
    (u : String) : Except (List AnomalyLogRecord) (List AnomalyLogRecord) :=
  if env.histQueryFails then .error acc
  else if uaFlag db now u then
    if env.userLookupFails then .error acc
    else
      let user := findUserById db u
      let _admins := getAdministratorsRun env db "security_admin"
      let _sent := sendNotificationRun env.failingChannels allChannels
      if env.notifyThrows then .error acc
      else
        .ok (logAnomalyRun env acc "unusual_access" "medium" (some u)
          (.unusualAccess (user.map (fun t => t.username))
            (unusualResourcesOf db now u) (unusualIpsOf db now u)) now)
  else .ok acc

/-- The body of `detectUnusualAccess` inside its try (lines 194-324). -/
def uaBody (env : Env) (db : DB) (now : Int) :
    Except (List AnomalyLogRecord) (List AnomalyLogRecord) :=
  if env.recentQueryFails then .error []
  else runSteps (uaStep env db now) (uaUsers db now) []

/-- The method `detectUnusualAccess()`: the rows it inserts into `anomaly_logs`. -/
def detectUnusualAccessRun (env : Env) (db : DB) (now : Int) :
    List AnomalyLogRecord :=
  detectorRecords (uaBody env db now)

/-! ## The sweep (`detectAnomalies`, lines 25-36) -/

/-- One detector as the promise `Promise.all` awaits: thanks to the
detector's own try/catch the promise always resolves, carrying the rows the
detector inserted. -/
def detectorPromise
    (body : Except (List AnomalyLogRecord) (List AnomalyLogRecord)) :
    Except Unit (List AnomalyLogRecord) :=
  match body with
  | .ok recs => .ok recs
  | .error recs => .ok recs

/-- All rows a sweep inserts into `anomaly_logs` (one linearisation of the
three concurrent detectors' inserts). -/
def sweepRecords (env : Env) (db : DB) (now : Int) : List AnomalyLogRecord :=
  detectHighValuePurchasesRun env db now
    ++ detectAuthenticationFailuresRun env db now
    ++ detectUnusualAccessRun env db now

/-- The method `detectAnomalies()`: `await Promise.all` of the three detectors; it
rejects iff one of the three promises rejects. -/
def detectAnomaliesRun (env : Env) (db : DB) (now : Int) :
    Except Unit (List AnomalyLogRecord) := do
  let a ← detectorPromise (hvBody env db now)
  let b ← detectorPromise (authBody env db now)
  let c ← detectorPromise (uaBody env db now)
  pure (a ++ b ++ c)

/-! ## Canonical detector outputs and structural lemmas -/

/-- The rows `detectHighValuePurchases` inserts when no operation fails:
one `high_purchase` row per flagged recent pending order. -/
def hvFindings (db : DB) (now : Int) : List AnomalyLogRecord :=
  ((recentPendingOrders db now).filter (hvFlag db now)).map (fun p =>
    mkAnomalyRecord "high_purchase" "high" (some p.user_id)
      (.highPurchase p.id p.total_amount (avgAmountOf db now p.user_id)) now)

/-- The rows `detectAuthenticationFailures` inserts when no operation
fails: one `auth_failure` row per over-threshold (ip, user) group. -/
def authFindings (db : DB) (now : Int) : List AnomalyLogRecord :=
  (groupedAuthFailures db now).map (fun k =>
    mkAnomalyRecord "auth_failure" "high" k.2
      (.authFailure k.1 (authCount db now k)) now)

/-- The rows `detectUnusualAccess` inserts when no operation fails: one
`unusual_access` row per flagged recent user. -/
def uaFindings (db : DB) (now : Int) : List AnomalyLogRecord :=
  ((uaUsers db now).filter (uaFlag db now)).map (fun u =>
    mkAnomalyRecord "unusual_access" "medium" (some u)
      (.unusualAccess ((findUserById db u).map (fun t => t.username))
        (unusualResourcesOf db now u) (unusualIpsOf db now u)) now)

theorem runSteps_eq {α : Type}
    (step : List AnomalyLogRecord → α →
      Except (List AnomalyLogRecord) (List AnomalyLogRecord))
    (g : α → List AnomalyLogRecord)
    (hstep : ∀ acc x, step acc x = Except.ok (acc ++ g x)) :
    ∀ (l : List α) (acc : List AnomalyLogRecord),
      runSteps step l acc = Except.ok (acc ++ l.flatMap g) := by
  intro l
  induction l with
  | nil => intro acc; simp [runSteps]
  | cons x xs ih =>
    intro acc
    rw [runSteps, hstep acc x]
    simp only [ih (acc ++ g x), List.flatMap_cons, List.append_assoc]

theorem flatMap_if_singleton {α β : Type} (p : α → Bool) (f : α → β)
    (l : List α) :
    (l.flatMap (fun x => if p x then [f x] else [])) = (l.filter p).map f := by
  induction l with
  | nil => simp
  | cons x xs ih =>
    by_cases hx : p x <;> simp [hx, ih]

theorem flatMap_singleton_map {α β : Type} (f : α → β) (l : List α) :
    (l.flatMap (fun x => [f x])) = l.map f := by
  induction l with
  | nil => simp
  | cons x xs ih => simp [ih]

theorem hv_run_eq (env : Env) (db : DB) (now : Int)
    (h1 : env.ordersQueryFails = false) (h2 : env.statsQueryFails = false)
    (h3 : env.notifyThrows = false) (h4 : env.insertFails = false) :
    detectHighValuePurchasesRun env db now = hvFindings db now := by
  have hstep : ∀ acc p, hvStep env db now acc p =
      Except.ok (acc ++ if hvFlag db now p then
        [mkAnomalyRecord "high_purchase" "high" (some p.user_id)
          (.highPurchase p.id p.total_amount (avgAmountOf db now p.user_id))
          now] else []) := by
    intro acc p
    by_cases hf : hvFlag db now p <;>
      simp [hvStep, h2, h3, h4, hf, logAnomalyRun]
  rw [detectHighValuePurchasesRun, hvBody, h1]
  simp only [Bool.false_eq_true, if_false,
    runSteps_eq (hvStep env db now) _ hstep, detectorRecords,
    List.nil_append]
  rw [flatMap_if_singleton, hvFindings]

theorem auth_run_eq (env : Env) (db : DB) (now : Int)
    (h1 : env.authQueryFails = false)
    (h3 : env.notifyThrows = false) (h4 : env.insertFails = false) :
    detectAuthenticationFailuresRun env db now = authFindings db now := by
  have hstep : ∀ acc k, authStep env db now acc k =
      Except.ok (acc ++
        [mkAnomalyRecord "auth_failure" "high" k.2
          (.authFailure k.1 (authCount db now k)) now]) := by
    intro acc k
    simp [authStep, h3, h4, logAnomalyRun]
  rw [detectAuthenticationFailuresRun, authBody, h1]
  simp only [Bool.false_eq_true, if_false,
    runSteps_eq (authStep env db now) _ hstep, detectorRecords,
    List.nil_append]
  rw [flatMap_singleton_map, authFindings]

theorem ua_run_eq (env : Env) (db : DB) (now : Int)
    (h1 : env.recentQueryFails = false) (h2 : env.histQueryFails = false)
    (h5 : env.userLookupFails = false)
    (h3 : env.notifyThrows = false) (h4 : env.insertFails = false) :
    detectUnusualAccessRun env db now = uaFindings db now := by
  have hstep : ∀ acc u, uaStep env db now acc u =
      Except.ok (acc ++ if uaFlag db now u then
        [mkAnomalyRecord "unusual_access" "medium" (some u)
          (.unusualAccess ((findUserById db u).map (fun t => t.username))
            (unusualResourcesOf db now u) (unusualIpsOf db now u)) now]
        else []) := by
    intro acc u
    by_cases hf : uaFlag db now u <;>
      simp [uaStep, h2, h3, h4, h5, hf, logAnomalyRun]
  rw [detectUnusualAccessRun, uaBody, h1]
  simp only [Bool.false_eq_true, if_false,
    runSteps_eq (uaStep env db now) _ hstep, detectorRecords,
    List.nil_append]
  rw [flatMap_if_singleton, uaFindings]

/-! ## Notification/recording order within a detector

For the temporal claim about when the Notifier Dispatcher is invoked
relative to the Anomaly Recorder's insert, each detector's per-finding
side effects are abstracted as an event trace. -/

/-- An externally visible side effect of a detector, keyed by the finding
it concerns. -/
inductive SideEffect (κ : Type) where
  | notifyCall (k : κ)
  | recordInsert (k : κ)
deriving DecidableEq

/-- The side-effect trace of `detectHighValuePurchases` with no failures:
per flagged order, line 81 (`sendNotification`) runs, then line 104
(`logAnomaly`), keyed by the order id. -/
def hvTrace (db : DB) (now : Int) : List (SideEffect String) :=
  (recentPendingOrders db now).flatMap (fun p =>
    if hvFlag db now p then [.notifyCall p.id, .recordInsert p.id] else [])

/-- The side-effect trace of `detectAuthenticationFailures` with no
failures: per over-threshold group, line 157 (`sendNotification`) runs,
then line 177 (`logAnomaly`), keyed by the (ip, user) group key. -/
def authTrace (db : DB) (now : Int) :
    List (SideEffect (String × Option String)) :=
  (groupedAuthFailures db now).flatMap (fun k =>
    [.notifyCall k, .recordInsert k])

/-- The side-effect trace of `detectUnusualAccess` with no failures: per
flagged user, line 297 (`sendNotification`) runs, then line 318
(`logAnomaly`), keyed by the user id. -/
def uaTrace (db : DB) (now : Int) : List (SideEffect String) :=
  (uaUsers db now).flatMap (fun u =>
    if uaFlag db now u then [.notifyCall u, .recordInsert u] else [])

/-- Every notification for a finding is preceded by that finding's insert
(the order claimed by spec §4.7). -/
def RecordBeforeNotify {κ : Type} (tr : List (SideEffect κ)) : Prop :=
  ∀ j k, tr.get? j = some (.notifyCall k) →
    ∃ i, i < j ∧ tr.get? i = some (.recordInsert k)

/-- Every insert of a finding is preceded by that finding's notification
(the order the code actually implements). -/
def NotifyBeforeRecord {κ : Type} (tr : List (SideEffect κ)) : Prop :=
  ∀ j k, tr.get? j = some (.recordInsert k) →
    ∃ i, i < j ∧ tr.get? i = some (.notifyCall k)

theorem notifyBeforeRecord_blocks {α κ : Type} (p : α → Bool) (f : α → κ)
    (l : List α) :
    NotifyBeforeRecord (l.flatMap (fun x =>
      if p x then [SideEffect.notifyCall (f x), SideEffect.recordInsert (f x)]
      else [])) := by
  induction l with
  | nil => intro j k h; simp at h
  | cons x xs ih =>
    intro j k h
    by_cases hx : p x
    · rw [List.flatMap_cons, if_pos hx] at h
      match j with
      | 0 => simp at h
      | 1 =>
        refine ⟨0, Nat.zero_lt_one, ?_⟩
        simp at h
        simp [hx, h]
      | (j + 2) =>
        obtain ⟨i, hi, hget⟩ := ih j k (by simpa using h)
        exact ⟨i + 2, by omega, by simpa [hx] using hget⟩
    · rw [List.flatMap_cons, if_neg hx, List.nil_append] at h
      obtain ⟨i, hi, hget⟩ := ih j k h
      refine ⟨i, hi, ?_⟩
      rw [List.flatMap_cons, if_neg hx, List.nil_append]
      exact hget

/-! ## Concrete states used as witnesses and counterexamples -/

/-- A frozen `Date.now()` for the concrete scenarios. -/
def exNow : Int := 1000000000000

/-- A pending order placed right now by a purchaser with no history. -/
def exOrder : TestOrder :=
  { id := "o1", order_number := "PO-1", user_id := "u1", status := "pending"
    total_amount := 100, created_at := 1000000000000 }

/-- A store holding only `exOrder`. -/
def exDb : DB := { orders := [exOrder], users := [], auditLogs := [] }

/-- A recent authenticated audit event of a user with no history. -/
def exLog : AuditLog :=
  { id := "a1", user_id := some "u2", action := "GET", resource := "vendors"
    ip_address := "10.0.0.1", response_status := 200
    timestamp := 1000000000000 }

/-- A store holding only `exLog`. -/
def exDb2 : DB := { orders := [], users := [], auditLogs := [exLog] }

/-- Failed login number `n` of a fixed burst: same IP and user, status 401,
inside the 30-minute window. -/
def mkFailedLogin (n : Nat) : AuditLog :=
  { id := toString n, user_id := some "u9", action := "login"
    resource := "auth", ip_address := "10.9.9.9", response_status := 401
    timestamp := 1000000000000 }

/-- A store with exactly five failed logins for one (ip, user) key. -/
def exDb5 : DB :=
  { orders := [], users := [], auditLogs := (List.range 5).map mkFailedLogin }

/-- A store with exactly six failed logins for one (ip, user) key. -/
def exDb6 : DB :=
  { orders := [], users := [], auditLogs := (List.range 6).map mkFailedLogin }

/-- An environment in which only the high-value detector's initial orders
query throws. -/
def hvFailEnv : Env := { cleanEnv with ordersQueryFails := true }

/-- An environment in which only the auth-failure detector's grouping query
throws. -/
def authFailEnv : Env := { cleanEnv with authQueryFails := true }

/-- An environment in which only the unusual-access detector's initial
audit query throws. -/
def uaFailEnv : Env := { cleanEnv with recentQueryFails := true }

/-- An environment in which only the administrator lookup's query fails. -/
def adminFailEnv : Env := { cleanEnv with adminQueryFails := true }

/-! ## Sweep-level lemmas -/

theorem sweep_resolves (env : Env) (db : DB) (now : Int) :
    detectAnomaliesRun env db now = Except.ok (sweepRecords env db now) := by
  rw [detectAnomaliesRun, sweepRecords, detectHighValuePurchasesRun,
    detectAuthenticationFailuresRun, detectUnusualAccessRun]
  cases hvBody env db now <;> cases authBody env db now <;>
    cases uaBody env db now <;> rfl

/-- A record as `logAnomaly` creates it: unresolved, with the resolution
columns unset. -/
def FreshRecord (r : AnomalyLogRecord) : Prop :=
  r.is_resolved = false ∧ r.resolved_at = none ∧ r.resolved_by = none ∧
    r.notes = none

theorem logAnomalyRun_fresh (env : Env) (store : List AnomalyLogRecord)
    (t s : String) (uid : Option String) (d : AnomalyDetails) (now : Int)
    (hst : ∀ r ∈ store, FreshRecord r) :
    ∀ r ∈ logAnomalyRun env store t s uid d now, FreshRecord r := by
  rw [logAnomalyRun]
  split
  · exact hst
  · intro r hr
    rcases List.mem_append.mp hr with h | h
    · exact hst r h
    · rw [List.mem_singleton] at h
      subst h
      exact ⟨rfl, rfl, rfl, rfl⟩

theorem runSteps_fresh {α : Type}
    (step : List AnomalyLogRecord → α →
      Except (List AnomalyLogRecord) (List AnomalyLogRecord))
    (hstep : ∀ acc x res,
      (step acc x = Except.ok res ∨ step acc x = Except.error res) →
      (∀ r ∈ acc, FreshRecord r) → ∀ r ∈ res, FreshRecord r) :
    ∀ (l : List α) (acc res : List AnomalyLogRecord),
      (runSteps step l acc = Except.ok res ∨
        runSteps step l acc = Except.error res) →
      (∀ r ∈ acc, FreshRecord r) → ∀ r ∈ res, FreshRecord r := by
  intro l
  induction l with
  | nil =>
    intro acc res h hacc
    rcases h with h | h
    · rw [runSteps] at h
      cases h
      exact hacc
    · rw [runSteps] at h
      cases h
  | cons x xs ih =>
    intro acc res h hacc
    rcases hs : step acc x with e | acc2
    · rcases h with h | h <;> rw [runSteps, hs] at h <;> cases h
      exact hstep acc x res (Or.inr hs) hacc
    · have hacc2 : ∀ r ∈ acc2, FreshRecord r :=
        hstep acc x acc2 (Or.inl hs) hacc
      rcases h with h | h <;> rw [runSteps, hs] at h
      · exact ih acc2 res (Or.inl h) hacc2
      · exact ih acc2 res (Or.inr h) hacc2

theorem hvStep_fresh (env : Env) (db : DB) (now : Int) :
    ∀ acc p res,
      (hvStep env db now acc p = Except.ok res ∨
        hvStep env db now acc p = Except.error res) →
      (∀ r ∈ acc, FreshRecord r) → ∀ r ∈ res, FreshRecord r := by
  intro acc p res h hacc
  have hpay : res = acc ∨
      ∃ t s uid d, res = logAnomalyRun env acc t s uid d now := by
    rw [hvStep] at h
    split_ifs at h <;>
      rcases h with h | h <;>
        first
          | (cases h; exact Or.inl rfl)
          | (cases h; exact Or.inr ⟨_, _, _, _, rfl⟩)
          | cases h
  rcases hpay with rfl | ⟨t, s, uid, d, rfl⟩
  · exact hacc
  · exact logAnomalyRun_fresh env acc t s uid d now hacc

theorem authStep_fresh (env : Env) (db : DB) (now : Int) :
    ∀ acc k res,
      (authStep env db now acc k = Except.ok res ∨
        authStep env db now acc k = Except.error res) →
      (∀ r ∈ acc, FreshRecord r) → ∀ r ∈ res, FreshRecord r := by
  intro acc k res h hacc
  have hpay : res = acc ∨
      ∃ t s uid d, res = logAnomalyRun env acc t s uid d now := by
    rw [authStep] at h
    split_ifs at h <;>
      rcases h with h | h <;>
        first
          | (cases h; exact Or.inl rfl)
          | (cases h; exact Or.inr ⟨_, _, _, _, rfl⟩)
          | cases h
  rcases hpay with rfl | ⟨t, s, uid, d, rfl⟩
  · exact hacc
  · exact logAnomalyRun_fresh env acc t s uid d now hacc

theorem uaStep_fresh (env : Env) (db : DB) (now : Int) :
    ∀ acc u res,
      (uaStep env db now acc u = Except.ok res ∨
        uaStep env db now acc u = Except.error res) →
      (∀ r ∈ acc, FreshRecord r) → ∀ r ∈ res, FreshRecord r := by
  intro acc u res h hacc
  have hpay : res = acc ∨
      ∃ t s uid d, res = logAnomalyRun env acc t s uid d now := by
    rw [uaStep] at h
    split_ifs at h <;>
      rcases h with h | h <;>
        first
          | (cases h; exact Or.inl rfl)
          | (cases h; exact Or.inr ⟨_, _, _, _, rfl⟩)
          | cases h
  rcases hpay with rfl | ⟨t, s, uid, d, rfl⟩
  · exact hacc
  · exact logAnomalyRun_fresh env acc t s uid d now hacc

theorem detectorRecords_fresh
    (body : Except (List AnomalyLogRecord) (List AnomalyLogRecord))
    (h : ∀ res, (body = Except.ok res ∨ body = Except.error res) →
      ∀ r ∈ res, FreshRecord r) :
    ∀ r ∈ detectorRecords body, FreshRecord r := by
  rcases body with e | l
  · exact h e (Or.inr rfl)
  · exact h l (Or.inl rfl)

theorem sweepRecords_fresh (env : Env) (db : DB) (now : Int) :
    ∀ r ∈ sweepRecords env db now, FreshRecord r := by
  intro r hr
  rw [sweepRecords] at hr
  rcases List.mem_append.mp hr with hr2 | hr2
  · rcases List.mem_append.mp hr2 with hr3 | hr3
    · refine detectorRecords_fresh _ ?_ r hr3
      intro res hres
      rw [hvBody] at hres
      split_ifs at hres with hq
      · rcases hres with h | h <;> cases h
        intro r h
        cases h
      · exact runSteps_fresh (hvStep env db now) (hvStep_fresh env db now)
          (recentPendingOrders db now) [] res hres (by intro r h; cases h)
    · refine detectorRecords_fresh _ ?_ r hr3
      intro res hres
      rw [authBody] at hres
      split_ifs at hres with hq
      · rcases hres with h | h <;> cases h
        intro r h
        cases h
      · exact runSteps_fresh (authStep env db now) (authStep_fresh env db now)
          (groupedAuthFailures db now) [] res hres (by intro r h; cases h)
  · refine detectorRecords_fresh _ ?_ r hr2
    intro res hres
    rw [uaBody] at hres
    split_ifs at hres with hq
    · rcases hres with h | h <;> cases h
      intro r h
      cases h
    · exact runSteps_fresh (uaStep env db now) (uaStep_fresh env db now)
        (uaUsers db now) [] res hres (by intro r h; cases h)

/-! ## Concrete evaluation lemmas for the example stores -/

theorem exOrder_flagged : hvFlag exDb exNow exOrder = true := by
  have h1 : avgAmountOf exDb exNow exOrder.user_id = 0 := rfl
  have h2 : maxAmountOf exDb exNow exOrder.user_id = 0 := rfl
  rw [hvFlag, h1, h2]
  show (decide ((0 : ℚ) * 3 < 100) && decide ((0 : ℚ) * (3 / 2) < 100)) = true
  simp only [Bool.and_eq_true, decide_eq_true_eq]
  norm_num

theorem hvRun_exDb : detectHighValuePurchasesRun cleanEnv exDb exNow =
    [mkAnomalyRecord "high_purchase" "high" (some "u1")
      (.highPurchase "o1" 100 0) exNow] := by
  rw [hv_run_eq cleanEnv exDb exNow rfl rfl rfl rfl, hvFindings]
  have hfil : (recentPendingOrders exDb exNow).filter (hvFlag exDb exNow)
      = [exOrder] := by
    rw [show recentPendingOrders exDb exNow = [exOrder] from rfl]
    simp [exOrder_flagged]
  rw [hfil]
  rfl

theorem sweep_exDb : sweepRecords cleanEnv exDb exNow =
    [mkAnomalyRecord "high_purchase" "high" (some "u1")
      (.highPurchase "o1" 100 0) exNow] := by
  rw [sweepRecords, hvRun_exDb]
  rfl

/-! ## The claims -/

/-- C10: for every input state and failure environment — including ones in
which every database query, every finding insert, the user/administrator
lookups and the notification call fail — the sweep `detectAnomalies`
resolves normally with the records it inserted; no error propagates to the
scheduler, because each detector catches its own errors and the
administrator lookup and the recorder swallow theirs internally. -/
theorem c10_sweep_never_rejects (env : Env) (db : DB) (now : Int) :
    detectAnomaliesRun env db now = Except.ok (sweepRecords env db now) :=
  sweep_resolves env db now

/-- C5: injecting a failure into exactly one of the three detectors leaves
the other two detectors' recorded findings exactly those of a failure-free
sweep, the failing detector's error is contained (it records nothing and
nothing propagates), and the sweep still resolves once all three have
finished or failed. -/
theorem c5_partial_failure_isolation (db : DB) (now : Int) :
    detectAnomaliesRun hvFailEnv db now
      = Except.ok ([] ++ authFindings db now ++ uaFindings db now) ∧
    detectAnomaliesRun authFailEnv db now
      = Except.ok (hvFindings db now ++ [] ++ uaFindings db now) ∧
    detectAnomaliesRun uaFailEnv db now
      = Except.ok (hvFindings db now ++ authFindings db now ++ []) := by
  refine ⟨?_, ?_, ?_⟩
  · rw [sweep_resolves, sweepRecords,
      show detectHighValuePurchasesRun hvFailEnv db now = [] from rfl,
      auth_run_eq hvFailEnv db now rfl rfl rfl,
      ua_run_eq hvFailEnv db now rfl rfl rfl rfl rfl]
  · rw [sweep_resolves, sweepRecords,
      hv_run_eq authFailEnv db now rfl rfl rfl rfl,
      show detectAuthenticationFailuresRun authFailEnv db now = [] from rfl,
      ua_run_eq authFailEnv db now rfl rfl rfl rfl rfl]
  · rw [sweep_resolves, sweepRecords,
      hv_run_eq uaFailEnv db now rfl rfl rfl rfl,
      auth_run_eq uaFailEnv db now rfl rfl rfl,
      show detectUnusualAccessRun uaFailEnv db now = [] from rfl]

/-- C9: every `anomaly_logs` row inserted by a sweep — under any failure
environment — is created with `is_resolved = false` and with `resolved_at`,
`resolved_by` and `notes` unset, so the invariant "resolved-at/resolved-by
are set iff resolved is true" holds (both sides false) for every record the
engine creates. -/
theorem c9_resolution_invariant (env : Env) (db : DB) (now : Int)
    (r : AnomalyLogRecord) (hr : r ∈ sweepRecords env db now) :
    r.is_resolved = false ∧ r.resolved_at = none ∧ r.resolved_by = none ∧
      r.notes = none ∧
      ((r.resolved_at ≠ none ∨ r.resolved_by ≠ none) ↔
        r.is_resolved = true) := by
  obtain ⟨h1, h2, h3, h4⟩ := sweepRecords_fresh env db now r hr
  refine ⟨h1, h2, h3, h4, ?_⟩
  rw [h1, h2, h3]
  simp

theorem c9_witness :
    (mkAnomalyRecord "high_purchase" "high" (some "u1")
        (.highPurchase "o1" 100 0) exNow).is_resolved = false ∧
    (mkAnomalyRecord "high_purchase" "high" (some "u1")
        (.highPurchase "o1" 100 0) exNow).resolved_at = none ∧
    (mkAnomalyRecord "high_purchase" "high" (some "u1")
        (.highPurchase "o1" 100 0) exNow).resolved_by = none ∧
    (mkAnomalyRecord "high_purchase" "high" (some "u1")
        (.highPurchase "o1" 100 0) exNow).notes = none ∧
    (((mkAnomalyRecord "high_purchase" "high" (some "u1")
        (.highPurchase "o1" 100 0) exNow).resolved_at ≠ none ∨
      (mkAnomalyRecord "high_purchase" "high" (some "u1")
        (.highPurchase "o1" 100 0) exNow).resolved_by ≠ none) ↔
      (mkAnomalyRecord "high_purchase" "high" (some "u1")
        (.highPurchase "o1" 100 0) exNow).is_resolved = true) :=
  c9_resolution_invariant cleanEnv exDb exNow
    (mkAnomalyRecord "high_purchase" "high" (some "u1")
      (.highPurchase "o1" 100 0) exNow)
    (by rw [sweep_exDb]; exact List.mem_singleton.mpr rfl)

/-- C1: an order with status `pending` created within the last hour is
flagged by the high-value detector — a `high_purchase` finding carrying its
id, amount and computed average is inserted — iff its amount strictly
exceeds both 3 times the purchaser's average and 1.5 times the purchaser's
maximum approved-order total over the window `[now-90d, now-1h)`, both
aggregates being 0 when no such approved orders exist. (Order ids are
assumed unique, as the `test_orders` primary key guarantees.) -/
theorem c1_high_value_flag_iff (db : DB) (now : Int) (o : TestOrder)
    (hids : (db.orders.map (fun t => t.id)).Nodup)
    (ho : o ∈ db.orders) (hst : o.status = "pending")
    (ht : now - hourMs ≤ o.created_at) :
    (∃ r ∈ detectHighValuePurchasesRun cleanEnv db now,
        r.details = AnomalyDetails.highPurchase o.id o.total_amount
          (avgAmountOf db now o.user_id))
      ↔ (avgAmountOf db now o.user_id * 3 < o.total_amount ∧
         maxAmountOf db now o.user_id * (3 / 2 : ℚ) < o.total_amount) := by
  rw [hv_run_eq cleanEnv db now rfl rfl rfl rfl, hvFindings]
  constructor
  · rintro ⟨r, hr, hdet⟩
    rw [List.mem_map] at hr
    obtain ⟨p, hp, hpr⟩ := hr
    rw [List.mem_filter] at hp
    obtain ⟨hpmem, hpflag⟩ := hp
    subst hpr
    rw [show (mkAnomalyRecord "high_purchase" "high" (some p.user_id)
      (AnomalyDetails.highPurchase p.id p.total_amount
        (avgAmountOf db now p.user_id)) now).details
      = AnomalyDetails.highPurchase p.id p.total_amount
        (avgAmountOf db now p.user_id) from rfl] at hdet
    have hid : p.id = o.id := by
      injection hdet
    have hpdb : p ∈ db.orders := by
      rw [recentPendingOrders, List.mem_filter] at hpmem
      exact hpmem.1
    have hpo : p = o := List.inj_on_of_nodup_map hids hpdb ho hid
    subst hpo
    rw [hvFlag, Bool.and_eq_true, decide_eq_true_eq, decide_eq_true_eq]
      at hpflag
    exact hpflag
  · intro hcond
    refine ⟨mkAnomalyRecord "high_purchase" "high" (some o.user_id)
      (AnomalyDetails.highPurchase o.id o.total_amount
        (avgAmountOf db now o.user_id)) now, ?_, rfl⟩
    rw [List.mem_map]
    refine ⟨o, ?_, rfl⟩
    rw [List.mem_filter]
    refine ⟨?_, ?_⟩
    · rw [recentPendingOrders, List.mem_filter]
      refine ⟨ho, ?_⟩
      rw [Bool.and_eq_true, decide_eq_true_eq, beq_iff_eq]
      exact ⟨ht, hst⟩
    · rw [hvFlag, Bool.and_eq_true, decide_eq_true_eq, decide_eq_true_eq]
      exact hcond

theorem c1_witness :
    ∃ r ∈ detectHighValuePurchasesRun cleanEnv exDb exNow,
      r.details = AnomalyDetails.highPurchase "o1" 100 0 := by
  have hcond : avgAmountOf exDb exNow exOrder.user_id * 3
        < exOrder.total_amount ∧
      maxAmountOf exDb exNow exOrder.user_id * (3 / 2 : ℚ)
        < exOrder.total_amount := by
    rw [show avgAmountOf exDb exNow exOrder.user_id = 0 from rfl,
      show maxAmountOf exDb exNow exOrder.user_id = 0 from rfl]
    show (0 : ℚ) * 3 < 100 ∧ (0 : ℚ) * (3 / 2) < 100
    norm_num
  exact (c1_high_value_flag_iff exDb exNow exOrder (by decide) (by decide)
    rfl (by decide)).mpr hcond

/-- C6: a pending order created within the last hour by a purchaser with no
approved orders in the baseline window (average = maximum = 0) is flagged
whenever its amount is strictly positive: the cold-start behaviour. -/
theorem c6_cold_start (db : DB) (now : Int) (o : TestOrder)
    (ho : o ∈ db.orders) (hst : o.status = "pending")
    (ht : now - hourMs ≤ o.created_at)
    (hhist : approvedHistory db now o.user_id = [])
    (hpos : 0 < o.total_amount) :
    ∃ r ∈ detectHighValuePurchasesRun cleanEnv db now,
      r.type = "high_purchase" ∧ r.user_id = some o.user_id ∧
        r.details = AnomalyDetails.highPurchase o.id o.total_amount 0 := by
  have havg : avgAmountOf db now o.user_id = 0 := by
    rw [avgAmountOf, hhist]
    rfl
  have hmax : maxAmountOf db now o.user_id = 0 := by
    rw [maxAmountOf, hhist]
    rfl
  have hflag : hvFlag db now o = true := by
    rw [hvFlag, havg, hmax, Bool.and_eq_true, decide_eq_true_eq,
      decide_eq_true_eq, zero_mul, zero_mul]
    exact ⟨hpos, hpos⟩
  rw [hv_run_eq cleanEnv db now rfl rfl rfl rfl, hvFindings]
  refine ⟨mkAnomalyRecord "high_purchase" "high" (some o.user_id)
    (AnomalyDetails.highPurchase o.id o.total_amount
      (avgAmountOf db now o.user_id)) now, ?_, ?_⟩
  · rw [List.mem_map]
    refine ⟨o, ?_, rfl⟩
    rw [List.mem_filter]
    refine ⟨?_, hflag⟩
    rw [recentPendingOrders, List.mem_filter]
    refine ⟨ho, ?_⟩
    rw [Bool.and_eq_true, decide_eq_true_eq, beq_iff_eq]
    exact ⟨ht, hst⟩
  · rw [havg]
    exact ⟨rfl, rfl, rfl⟩

theorem c6_witness :
    ∃ r ∈ detectHighValuePurchasesRun cleanEnv exDb exNow,
      r.type = "high_purchase" ∧ r.user_id = some "u1" ∧
        r.details = AnomalyDetails.highPurchase "o1" 100 0 :=
  c6_cold_start exDb exNow exOrder (by decide) rfl (by decide) rfl
    (by decide)

/-- C2: a (source IP, user id) group of failed-login audit events of the
trailing 30 minutes — action containing "login", response status ≥ 400,
user id possibly absent so that per-IP groups still aggregate — yields an
`auth_failure` finding iff the group exists and its event count strictly
exceeds 5; in particular a burst of exactly 5 events is not flagged and a
burst of 6 is. -/
theorem c2_auth_failure_threshold :
    (∀ (db : DB) (now : Int) (ip : String) (uid : Option String),
      (∃ r ∈ detectAuthenticationFailuresRun cleanEnv db now,
          r.user_id = uid ∧
          r.details = AnomalyDetails.authFailure ip
            (authCount db now (ip, uid)))
        ↔ ((ip, uid) ∈ authKeys db now ∧ 5 < authCount db now (ip, uid))) ∧
    detectAuthenticationFailuresRun cleanEnv exDb5 exNow = [] ∧
    (∃ r ∈ detectAuthenticationFailuresRun cleanEnv exDb6 exNow,
      r.user_id = some "u9" ∧
      r.details = AnomalyDetails.authFailure "10.9.9.9" 6) := by
  refine ⟨?_, by decide, by decide⟩
  intro db now ip uid
  rw [auth_run_eq cleanEnv db now rfl rfl rfl, authFindings]
  constructor
  · rintro ⟨r, hr, huid, hdet⟩
    rw [List.mem_map] at hr
    obtain ⟨k, hk, hkr⟩ := hr
    subst hkr
    obtain ⟨kip, kuid⟩ := k
    have huid2 : kuid = uid := huid
    have hdet2 : AnomalyDetails.authFailure kip
        (authCount db now (kip, kuid))
        = AnomalyDetails.authFailure ip (authCount db now (ip, uid)) := hdet
    have hip : kip = ip := by injection hdet2
    subst huid2
    subst hip
    rw [groupedAuthFailures, List.mem_filter, decide_eq_true_eq] at hk
    exact hk
  · rintro ⟨hmem, hcnt⟩
    refine ⟨mkAnomalyRecord "auth_failure" "high" uid
      (AnomalyDetails.authFailure ip (authCount db now (ip, uid))) now,
      ?_, rfl, rfl⟩
    rw [List.mem_map]
    refine ⟨(ip, uid), ?_, rfl⟩
    rw [groupedAuthFailures, List.mem_filter, decide_eq_true_eq]
    exact ⟨hmem, hcnt⟩

/-- C3: a user appearing in the per-user access map built from the
authenticated audit events of the trailing 2 hours is flagged by the
unusual-access detector — an `unusual_access` finding for that user is
inserted — iff some recently accessed resource lies outside the user's
historical resource set over `[now-30d, now-2h)` or some recent source IP
has zero historical frequency over that window; a user whose recent
resources and IPs are fully contained in history is never flagged. -/
theorem c3_unusual_access_flag_iff (db : DB) (now : Int) (u : String)
    (hu : u ∈ uaUsers db now) :
    (∃ r ∈ detectUnusualAccessRun cleanEnv db now,
        r.user_id = some u ∧ r.type = "unusual_access")
      ↔ ((∃ res ∈ recentResourcesOf db now u,
            res ∉ commonResourcesOf db now u) ∨
         (∃ ip ∈ recentIpsOf db now u, ipFrequencyOf db now u ip = 0)) := by
  rw [ua_run_eq cleanEnv db now rfl rfl rfl rfl rfl, uaFindings]
  constructor
  · rintro ⟨r, hr, huid, -⟩
    rw [List.mem_map] at hr
    obtain ⟨v, hv, hvr⟩ := hr
    subst hvr
    have hvu : some v = some u := huid
    injection hvu with hvu
    subst hvu
    rw [List.mem_filter] at hv
    have hflag := hv.2
    rw [uaFlag, Bool.or_eq_true, decide_eq_true_eq, decide_eq_true_eq]
      at hflag
    rcases hflag with hres | hip
    · left
      obtain ⟨res, hresmem⟩ :=
        List.exists_mem_of_ne_nil _ (List.length_pos.mp hres)
      rw [unusualResourcesOf, List.mem_filter] at hresmem
      refine ⟨res, hresmem.1, ?_⟩
      simpa using hresmem.2
    · right
      obtain ⟨ip, hipmem⟩ :=
        List.exists_mem_of_ne_nil _ (List.length_pos.mp hip)
      rw [unusualIpsOf, List.mem_filter, beq_iff_eq] at hipmem
      exact ⟨ip, hipmem.1, hipmem.2⟩
  · intro hcond
    have hflag : uaFlag db now u = true := by
      rw [uaFlag, Bool.or_eq_true, decide_eq_true_eq, decide_eq_true_eq]
      rcases hcond with ⟨res, hmem, hnot⟩ | ⟨ip, hmem, hzero⟩
      · left
        have hin : res ∈ unusualResourcesOf db now u := by
          rw [unusualResourcesOf, List.mem_filter]
          exact ⟨hmem, by simpa using hnot⟩
        exact List.length_pos.mpr (List.ne_nil_of_mem hin)
      · right
        have hin : ip ∈ unusualIpsOf db now u := by
          rw [unusualIpsOf, List.mem_filter, beq_iff_eq]
          exact ⟨hmem, hzero⟩
        exact List.length_pos.mpr (List.ne_nil_of_mem hin)
    refine ⟨mkAnomalyRecord "unusual_access" "medium" (some u)
      (AnomalyDetails.unusualAccess
        ((findUserById db u).map (fun t => t.username))
        (unusualResourcesOf db now u) (unusualIpsOf db now u)) now,
      ?_, rfl, rfl⟩
    rw [List.mem_map]
    exact ⟨u, List.mem_filter.mpr ⟨hu, hflag⟩, rfl⟩

theorem c3_witness :
    ∃ r ∈ detectUnusualAccessRun cleanEnv exDb2 exNow,
      r.user_id = some "u2" ∧ r.type = "unusual_access" :=
  (c3_unusual_access_flag_iff exDb2 exNow "u2" (by decide)).mpr
    (Or.inl ⟨"vendors", by decide, by decide⟩)

theorem hvTrace_exDb : hvTrace exDb exNow =
    [SideEffect.notifyCall "o1", SideEffect.recordInsert "o1"] := by
  rw [hvTrace, show recentPendingOrders exDb exNow = [exOrder] from rfl,
    List.flatMap_cons, List.flatMap_nil, List.append_nil,
    if_pos exOrder_flagged]
  rfl

/-- C4 (counterexample): in the store `exDb` the high-value detector's
side-effect trace is notification first, insert second, so the claim that
the finding's recording has already completed before the Notifier
Dispatcher is invoked fails at this input. -/
theorem c4_counterexample : ¬ RecordBeforeNotify (hvTrace exDb exNow) := by
  intro h
  obtain ⟨i, hi, -⟩ := h 0 "o1" (by rw [hvTrace_exDb]; rfl)
  exact Nat.not_lt_zero i hi

/-- C4 (amended): within each detector the Notifier Dispatcher is invoked
before the Anomaly Recorder's insert for every finding (never after), and —
the dispatcher being modelled from the spec as swallowing channel
failures — failing notification channels neither fail a detector nor
change the findings a sweep records. -/
theorem c4_notify_precedes_insert (db : DB) (now : Int)
    (failing : List String) :
    NotifyBeforeRecord (hvTrace db now) ∧
    NotifyBeforeRecord (authTrace db now) ∧
    NotifyBeforeRecord (uaTrace db now) ∧
    sweepRecords { cleanEnv with failingChannels := failing } db now
      = sweepRecords cleanEnv db now := by
  refine ⟨notifyBeforeRecord_blocks (hvFlag db now) (fun p => p.id)
      (recentPendingOrders db now), ?_,
    notifyBeforeRecord_blocks (uaFlag db now) (fun v => v)
      (uaUsers db now), rfl⟩
  have heq : authTrace db now = (groupedAuthFailures db now).flatMap
      (fun k => if (fun _ => true) k then
        [SideEffect.notifyCall k, SideEffect.recordInsert k] else []) := by
    simp [authTrace]
  rw [heq]
  exact notifyBeforeRecord_blocks (fun _ => true) (fun k => k)
    (groupedAuthFailures db now)

/-- C7: the administrator lookup returns precisely the ids of the active
users whose role is "admin", the required role or "super_admin"; when its
query fails it raises nothing and returns the empty list; and a failed
(hence empty-recipient) administrator lookup leaves every record a sweep
inserts unchanged — an empty recipient set never prevents a finding from
being recorded. -/
theorem c7_admin_lookup (db : DB) (role u : String) (now : Int) :
    (u ∈ getAdministratorsRun cleanEnv db role ↔
      ∃ t ∈ db.users, t.id = u ∧ t.is_active = true ∧
        (t.role = "admin" ∨ t.role = role ∨ t.role = "super_admin")) ∧
    getAdministratorsRun adminFailEnv db role = [] ∧
    sweepRecords adminFailEnv db now = sweepRecords cleanEnv db now := by
  refine ⟨?_, rfl, rfl⟩
  rw [getAdministratorsRun, show cleanEnv.adminQueryFails = false from rfl]
  simp only [Bool.false_eq_true, if_false, List.mem_map, List.mem_filter,
    Bool.and_eq_true, Bool.or_eq_true, beq_iff_eq, or_assoc]
  constructor
  · rintro ⟨t, ⟨htm, hrole, hact⟩, hid⟩
    exact ⟨t, htm, hid, hact, hrole⟩
  · rintro ⟨t, htm, hid, hact, hrole⟩
    exact ⟨t, ⟨htm, hrole, hact⟩, hid⟩

/-- The persisted `anomaly_logs` table after one sweep: the sweep's records
appended to the rows already present. -/
def sweepInsert (env : Env) (db : DB) (now : Int)
    (store : List AnomalyLogRecord) : List AnomalyLogRecord :=
  store ++ sweepRecords env db now

/-- C8: recording performs no deduplication — every successful `logAnomaly`
call appends one fresh row whatever the store already holds — so running
the sweep twice in immediate succession over unchanged data leaves at least
two copies of each finding of a single sweep in the table. -/
theorem c8_no_dedup (db : DB) (now : Int) (store : List AnomalyLogRecord)
    (t s : String) (uid : Option String) (d : AnomalyDetails)
    (r : AnomalyLogRecord) (hr : r ∈ sweepRecords cleanEnv db now) :
    (logAnomalyRun cleanEnv store t s uid d now).length
      = store.length + 1 ∧
    2 ≤ ((sweepInsert cleanEnv db now
      (sweepInsert cleanEnv db now [])).count r) := by
  constructor
  · rw [logAnomalyRun, show cleanEnv.insertFails = false from rfl]
    simp
  · rw [sweepInsert, sweepInsert, List.nil_append, List.count_append]
    have h1 : 0 < (sweepRecords cleanEnv db now).count r :=
      List.count_pos_iff.mpr hr
    omega

theorem c8_witness :
    (logAnomalyRun cleanEnv [] "high_purchase" "high" (some "u1")
      (AnomalyDetails.highPurchase "o1" 100 0) exNow).length
      = ([] : List AnomalyLogRecord).length + 1 ∧
    2 ≤ ((sweepInsert cleanEnv exDb exNow
      (sweepInsert cleanEnv exDb exNow [])).count
        (mkAnomalyRecord "high_purchase" "high" (some "u1")
          (AnomalyDetails.highPurchase "o1" 100 0) exNow)) := by
  refine c8_no_dedup exDb exNow [] "high_purchase" "high" (some "u1")
    (AnomalyDetails.highPurchase "o1" 100 0)
    (mkAnomalyRecord "high_purchase" "high" (some "u1")
      (AnomalyDetails.highPurchase "o1" 100 0) exNow) ?_
  rw [sweep_exDb]
  exact List.mem_singleton.mpr rfl

end ProcureErp




